import Mathlib

/-!
Shallow embedding of the OpenSim `DataTable_` container
(src/OpenSim/Common/DataTable.h) and the parts of its base class
`AbstractDataTable` that the table engine relies on.

The table is templated over the independent-column element type `ETX` and
the dependent-element type `ETY`; the embedding keeps both as type
parameters.  Real-valued data is modelled with exact element types
(theorems instantiate `Int`): no claim below depends on floating-point
rounding, only on exact equality, which carries over unchanged.
-/

namespace OpenSimModel

/-- A type-erased homogeneous value array of the metadata store
(`ValueArray<T>` in the C++ source); the array is typed as a whole, which
is what the `dynamic_cast<ValueArray<std::string>*>` in the flatten
constructor inspects.  The kinds cover the value types the repository
actually stores (strings, unsigned, signed integers). -/
inductive ValueArrayAny where
  | strArray  (vals : List String)
  | uintArray (vals : List Nat)
  | intArray  (vals : List Int)
  deriving DecidableEq, Repr

/-- Source `AbstractValueArray::size()`. -/
def ValueArrayAny.size : ValueArrayAny → Nat
  | .strArray vals  => vals.length
  | .uintArray vals => vals.length
  | .intArray vals  => vals.length

/-- Modelled from the spec (section 4.1): the metadata store of
`AbstractDataTable.h` (not under src/) is an ordered mapping from string
key to a typed value array. -/
abbrev MetaDataStore := List (String × ValueArrayAny)

/-- Modelled from the spec (section 4.1): `getValueArrayForKey` returns the
array registered for the key (first occurrence); a missing key is the
`KeyNotFound` outcome, modelled as `none`. -/
def getValueArrayForKey (store : MetaDataStore) (key : String) :
    Option ValueArrayAny :=
  (store.find? (fun kv => kv.1 = key)).map (fun kv => kv.2)

/-- Modelled from the spec (section 4.1): `setValueArrayForKey` replaces the
array registered for the key in place (keys are unique in the store), or
registers the key at the end. -/
def setValueArrayForKey : MetaDataStore → String → ValueArrayAny →
    MetaDataStore
  | [], key, v => [(key, v)]
  | kv :: rest, key, v =>
      if kv.1 = key then (key, v) :: rest
      else kv :: setValueArrayForKey rest key v

/-- The dense dependent-data matrix (`SimTK::Matrix_<ETY>`): a column count
plus the rows in order; `nrow()` is the number of rows held. -/
structure SimTKMatrix (ETY : Type) where
  ncol : Nat
  rows : List (List ETY)
  deriving DecidableEq, Repr

/-- Source `Matrix_::nrow()`. -/
def SimTKMatrix.nrow {ETY : Type} (m : SimTKMatrix ETY) : Nat :=
  m.rows.length

/-- The error taxonomy raised by the table engine.  The final two kinds are
not OpenSim exception classes: `simtkDimensionMismatch` models the SimTK
error raised when a row view is copy-assigned from a row of a different
width (external to this repository), and `nullPointerDereference` models
the undefined behavior of dereferencing the null result of a failed
pointer `dynamic_cast`. -/
inductive DataTableError where
  | invalidArgument (msg : String)
  | incorrectNumColumns (expected actual : Nat)
  | invalidRow (msg : String)
  | rowIndexOutOfRange (index lo hi : Nat)
  | columnIndexOutOfRange (index lo hi : Nat)
  | keyNotFound (key : String)
  | missingMetaData (key : String)
  | metaDataLengthZero (key : String)
  | incorrectMetaDataLength (key : String) (expected actual : Nat)
  | typeMismatch
  | stdOutOfRange
  | simtkDimensionMismatch
  | nullPointerDereference
  deriving DecidableEq, Repr

/-- Source `DataTable_<ETX, ETY>`: the independent column `_indData`
(`std::vector<ETX>`), the dependent matrix `_depData`
(`SimTK::Matrix_<ETY>`), and the dependent-columns metadata store
inherited from `AbstractDataTable`.  The independent metadata and
table-level metadata stores play no part in the claims and are omitted. -/
structure DataTable (ETX ETY : Type) where
  indData : List ETX
  depData : SimTKMatrix ETY
  dependentsMetaData : MetaDataStore
  deriving DecidableEq, Repr

namespace DataTable

variable {ETX ETY : Type}

/-- Source `implementGetNumRows`: the row count of the dependent matrix. -/
def getNumRows (t : DataTable ETX ETY) : Nat :=
  t.depData.nrow

/-- Source `implementGetNumColumns`: the column count of the dependent matrix. -/
def getNumColumns (t : DataTable ETX ETY) : Nat :=
  t.depData.ncol

/-- Source `isRowIndexOutOfRange`: checks the index against `_indData.size()`
(not against the matrix row count). -/
def isRowIndexOutOfRange (t : DataTable ETX ETY) (index : Nat) : Bool :=
  index ≥ t.indData.length

/-- Source `isColumnIndexOutOfRange`: checks the index against `_depData.ncol()`. -/
def isColumnIndexOutOfRange (t : DataTable ETX ETY) (index : Nat) : Bool :=
  index ≥ t.depData.ncol

end DataTable

/-- The `size_t` subtraction by one: `n - 1` computed in 64-bit unsigned
arithmetic, so `0 - 1` wraps to `2^64 - 1`. -/
def sizeTSub1 (n : Nat) : Nat :=
  (n + (2 ^ 64 - 1)) % 2 ^ 64

/-- The `static_cast<unsigned>` of a `size_t` value: truncation mod `2^32`. -/
def toUnsigned32 (n : Nat) : Nat :=
  n % 2 ^ 32

/-- The `static_cast<size_t>` of a signed `int` value: conversion mod `2^64`,
so `-1` becomes `2^64 - 1`. -/
def intToSizeT (i : Int) : Nat :=
  (i % (2 ^ 64 : Int)).toNat

namespace DataTable

variable {ETX ETY : Type}

/-- Result of `appendRow`: C++ exceptions leave the mutated object behind,
so the embedding returns the table state after the call together with the
exception raised, if any. -/
structure AppendResult (ETX ETY : Type) where
  table : DataTable ETX ETY
  error : Option DataTableError
  deriving DecidableEq, Repr

/-- Source `DataTable_::appendRow(const ETX&, const RowVector&)`
(DataTable.h lines 443-465), for the base class whose `validateRow` hook
is a no-operation.  The source pushes `indRow` onto `_indData` first; only
then, when the matrix is still empty, does it compare the row width with
the "labels" array (throwing `IncorrectNumColumns` on mismatch, with the
`KeyNotFound` of a missing "labels" entry caught and ignored).  When the
matrix already has rows and columns it performs no width check at all:
`resizeKeep` grows the matrix by one (uninitialized) row — modelled with
`default` elements — and the row-view copy-assignment is a SimTK-level
dimension error when the widths differ. -/
def appendRow [Inhabited ETY] (t : DataTable ETX ETY) (indRow : ETX)
    (depRow : List ETY) : AppendResult ETX ETY :=
  let t1 : DataTable ETX ETY := { t with indData := t.indData ++ [indRow] }
  if t1.depData.nrow = 0 ∨ t1.depData.ncol = 0 then
    match getValueArrayForKey t1.dependentsMetaData ("labels") with
    | some labels =>
        if depRow.length ≠ labels.size then
          ⟨t1, some (.incorrectNumColumns labels.size depRow.length)⟩
        else
          ⟨{ t1 with depData := ⟨depRow.length, [depRow]⟩ }, none⟩
    | none =>
        ⟨{ t1 with depData := ⟨depRow.length, [depRow]⟩ }, none⟩
  else
    if depRow.length = t1.depData.ncol then
      ⟨{ t1 with depData :=
           { t1.depData with rows := t1.depData.rows ++ [depRow] } }, none⟩
    else
      ⟨{ t1 with depData :=
           { t1.depData with
             rows := t1.depData.rows
                       ++ [List.replicate t1.depData.ncol default] } },
        some .simtkDimensionMismatch⟩

/-- Source `DataTable_::getRowAtIndex` (lines 470-476): bounds-checked against
`_indData.size()`, with the upper bound of the error computed as
`static_cast<unsigned>(_indData.size() - 1)`; returns the matrix row
(views are modelled as value copies; in a well-formed table the index is
within the matrix). -/
def getRowAtIndex (t : DataTable ETX ETY) (index : Nat) :
    Except DataTableError (List ETY) :=
  if t.isRowIndexOutOfRange index then
    .error (.rowIndexOutOfRange index 0
              (toUnsigned32 (sizeTSub1 t.indData.length)))
  else
    .ok (t.depData.rows.getD index [])

/-- The index of the first element equal to `v`, the
`std::distance(_indData.cbegin(), std::find(...))` of the source. -/
def findFirstIndex [DecidableEq ETX] : List ETX → ETX → Option Nat
  | [], _ => none
  | x :: xs, v =>
      if x = v then some 0 else (findFirstIndex xs v).map (fun i => i + 1)

/-- Source `DataTable_::getRow` (lines 482-489): linear search of `_indData` for
the first exact match, `KeyNotFound` carrying `std::to_string(ind)` when
absent. -/
def getRow [DecidableEq ETX] [ToString ETX] (t : DataTable ETX ETY)
    (ind : ETX) : Except DataTableError (List ETY) :=
  match findFirstIndex t.indData ind with
  | some i => .ok (t.depData.rows.getD i [])
  | none => .error (.keyNotFound (toString ind))

/-- Source `DataTable_::getDependentColumnAtIndex` (lines 529-535): bounds-checked
against `_depData.ncol()`, with the upper bound of the error computed as
`static_cast<size_t>(_depData.ncol() - 1)` in `int` arithmetic. -/
def getDependentColumnAtIndex [Inhabited ETY] (t : DataTable ETX ETY)
    (index : Nat) : Except DataTableError (List ETY) :=
  if t.isColumnIndexOutOfRange index then
    .error (.columnIndexOutOfRange index 0
              (intToSizeT ((t.depData.ncol : Int) - 1)))
  else
    .ok (t.depData.rows.map (fun r => r.getD index default))

/-- The first key of the store whose registered array length differs from
`numCols`, with that length — the loop of `validateDependentsMetaData`
over `getKeys()`. -/
def firstBadKey (store : MetaDataStore) (numCols : Nat) :
    Option (String × Nat) :=
  store.findSome? (fun kv =>
    match getValueArrayForKey store kv.1 with
    | some a => if numCols ≠ a.size then some (kv.1, a.size) else none
    | none => none)

/-- Source `DataTable_::validateDependentsMetaData` (lines 743-768): `none` means
the validation returned without throwing. -/
def validateDependentsMetaData (t : DataTable ETX ETY) :
    Option DataTableError :=
  match getValueArrayForKey t.dependentsMetaData ("labels") with
  | none => some (.missingMetaData ("labels"))
  | some arr =>
      let numCols := arr.size
      if numCols = 0 then some (.metaDataLengthZero ("labels"))
      else if t.depData.ncol ≠ 0 ∧ numCols ≠ t.depData.ncol then
        some (.incorrectMetaDataLength ("labels") t.depData.ncol numCols)
      else
        match firstBadKey t.dependentsMetaData numCols with
        | some (key, badSize) =>
            some (.incorrectMetaDataLength key numCols badSize)
        | none => none

/-- Modelled from the spec (section 4.2): `AbstractDataTable::hasColumnLabels`
(not under src/) reports whether a "labels" array is registered in the
dependents metadata store. -/
def hasColumnLabels (t : DataTable ETX ETY) : Bool :=
  (getValueArrayForKey t.dependentsMetaData ("labels")).isSome

/-- Modelled from the spec (sections 3 and 4.2):
`AbstractDataTable::getColumnLabels` (not under src/) returns the "labels"
array interpreted as strings; `none` covers both the missing-key and the
wrong-value-type failures. -/
def getColumnLabelsList (t : DataTable ETX ETY) : Option (List String) :=
  match getValueArrayForKey t.dependentsMetaData ("labels") with
  | some (.strArray ls) => some ls
  | _ => none

/-- Modelled from the spec (section 4.2) and the source comment at line 214:
`AbstractDataTable::setColumnLabels` (not under src/) registers the labels
array and then calls `validateDependentsMetaData`. -/
def setColumnLabels (t : DataTable ETX ETY) (ls : List String) :
    Except DataTableError (DataTable ETX ETY) :=
  let t1 : DataTable ETX ETY :=
    { t with dependentsMetaData :=
        setValueArrayForKey t.dependentsMetaData ("labels") (.strArray ls) }
  match t1.validateDependentsMetaData with
  | some e => .error e
  | none => .ok t1

end DataTable

/-- Each metadata entry replicated `k` consecutive times: the inner loop of
the flatten constructor pushes every value `numComponentsPerElement()`
times in order. -/
def replicateEach (k : Nat) (vals : List String) : List String :=
  vals.flatMap (List.replicate k)

/-- The metadata loop of the flatten constructor (DataTable.h lines
183-202).  The "labels" key is skipped.  An array of string type is
replicated.  For any other array type the pointer
`dynamic_cast<ValueArray<std::string>*>` yields a null pointer — it never
throws `std::bad_cast`, so the `catch` that would remove the key is dead
code — and the subsequent `valueArray->upd()` dereferences the null
pointer, modelled as the `nullPointerDereference` outcome. -/
def transformMetaData (k : Nat) : MetaDataStore →
    Except DataTableError MetaDataStore
  | [] => .ok []
  | (key, v) :: rest =>
      if key = "labels" then
        (transformMetaData k rest).map (fun r => (key, v) :: r)
      else
        match v with
        | .strArray vals =>
            (transformMetaData k rest).map
              (fun r => (key, .strArray (replicateEach k vals)) :: r)
        | _ => .error .nullPointerDereference

/-- The label-expansion loop of the flatten constructor (lines 204-213):
with no suffixes each label `L` yields `L + "_" + to_string(i)` for
`i = 1..k`; otherwise `L + suffix` for each supplied suffix. -/
def expandLabels (k : Nat) (labels : List String)
    (suffixes : List String) : List String :=
  labels.flatMap (fun label =>
    if suffixes = [] then
      (List.range k).map (fun i => label ++ "_" ++ toString (i + 1))
    else
      suffixes.map (fun s => label ++ s))

/-- The label-expansion law as the spec states it (sections 4.3 and 8): the
concatenation over source labels of the label prefixed to each suffix,
with default suffixes `"_1".."_k"` when none are supplied.  Stated
separately from `expandLabels` so the code-side computation can be
compared against the spec-side formula. -/
def specLabelExpansion (srcLabels suffixes : List String) (k : Nat) :
    List String :=
  let sfx := if suffixes = [] then
               (List.range k).map (fun j => "_" ++ toString (j + 1))
             else suffixes
  srcLabels.flatMap (fun L => sfx.map (fun s => L ++ s))

namespace DataTable

variable {ETX ETY Scalar : Type}

/-- The row loop of the flatten constructor (lines 217-224): for each
source row index, read the independent value (`std::vector::at`, in range
for a well-formed table) and the source row, split every element of the
row in column order into its scalar components, and append the
concatenation to the accumulating table.  An exception from `appendRow`
propagates out of the constructor. -/
def appendAllRows [Inhabited ETX] [Inhabited ETY] [Inhabited Scalar]
    (split : ETY → List Scalar) (that : DataTable ETX ETY) :
    List Nat → DataTable ETX Scalar →
    Except DataTableError (DataTable ETX Scalar)
  | [], acc => .ok acc
  | r :: rs, acc =>
      match that.getRowAtIndex r with
      | .error e => .error e
      | .ok thatRow =>
          let row := (List.range that.getNumColumns).flatMap
                       (fun c => split (thatRow.getD c default))
          let res := acc.appendRow (that.indData.getD r default) row
          match res.error with
          | some e => .error e
          | none => appendAllRows split that rs res.table

/-- Body of the flatten constructor after its three precondition checks:
metadata replication, label expansion, `setColumnLabels` (which runs
`validateDependentsMetaData`), then the row loop starting from a
default-constructed table carrying the transformed metadata. -/
def flattenBody [Inhabited ETX] [Inhabited ETY] [Inhabited Scalar]
    (k : Nat) (split : ETY → List Scalar) (that : DataTable ETX ETY)
    (suffixes : List String) :
    Except DataTableError (DataTable ETX Scalar) :=
  match transformMetaData k that.dependentsMetaData with
  | .error e => .error e
  | .ok md =>
      match that.getColumnLabelsList with
      | none => .error .typeMismatch
      | some srcLabels =>
          let thisLabels := expandLabels k srcLabels suffixes
          let t0 : DataTable ETX Scalar :=
            { indData := [], depData := ⟨0, []⟩, dependentsMetaData := md }
          match t0.setColumnLabels thisLabels with
          | .error e => .error e
          | .ok t1 =>
              appendAllRows split that (List.range that.getNumRows) t1

/-- The flatten constructor
`DataTable_<double, double>::DataTable_(const DataTable_<double, ThatETY>&,
const std::vector<std::string>&)` (lines 152-225), for a composite element
type `ETY` whose component count is `k` and whose
`splitElementAndPushBack` is `split`.  The three `OPENSIM_THROW_IF`
precondition checks come first, in source order. -/
def flattenCtor [Inhabited ETX] [Inhabited ETY] [Inhabited Scalar]
    (k : Nat) (split : ETY → List Scalar) (that : DataTable ETX ETY)
    (suffixes : List String) :
    Except DataTableError (DataTable ETX Scalar) :=
  if ¬ that.hasColumnLabels then
    .error (.invalidArgument ("DataTable that has no column labels."))
  else if that.getNumRows = 0 ∨ that.getNumColumns = 0 then
    .error (.invalidArgument ("DataTable that has zero rows/columns."))
  else if suffixes ≠ [] ∧ suffixes.length ≠ k then
    .error (.invalidArgument
      "suffixes must contain same number of elements as components.")
  else
    flattenBody k split that suffixes

/-- Source `DataTable_::flatten()` for a table whose element type is already
scalar (`ETY = double`).  The source returns
`DataTable_<double, double>{*this}`; for `ETY = double` overload
resolution selects the implicitly-defaulted copy constructor over the
template constructor (a non-template exact match beats a template one, and
the template's static_assert forbids `ThatETY = double`), so the result is
a member-wise copy of the table — labels included, unchanged. -/
def flattenScalar (t : DataTable ETX ETY) : DataTable ETX ETY :=
  t

end DataTable

/-- Recognizer for the `IncorrectNumColumns` error kind. -/
def DataTableError.isIncorrectNumColumns : DataTableError → Bool
  | .incorrectNumColumns _ _ => true
  | _ => false

/-- Recognizer for the `InvalidArgument` error kind. -/
def DataTableError.isInvalidArgument : DataTableError → Bool
  | .invalidArgument _ => true
  | _ => false

/-- A dependents metadata store holding the two labels `a`, `b`. -/
def exLabelsAB : MetaDataStore :=
  [("labels", ValueArrayAny.strArray ["a", "b"])]

/-- An empty table whose labels metadata is already set to two labels. -/
def exEmptyLabeled : DataTable Int Int :=
  ⟨[], ⟨0, []⟩, exLabelsAB⟩

/-- A table whose column count has been established at 2 by a previous
append. -/
def exEstablished : DataTable Int Int :=
  ⟨[0], ⟨2, [[1, 2]]⟩, exLabelsAB⟩

/-- A scalar-element table with one labeled column and one row. -/
def exScalarTable : DataTable Int Int :=
  ⟨[0], ⟨1, [[1]]⟩, [("labels", ValueArrayAny.strArray ["a"])]⟩

/-- A table whose independent column holds the same value twice, with two
different dependent rows. -/
def exDupTable : DataTable Int Int :=
  ⟨[0, 0], ⟨1, [[1], [2]]⟩, []⟩

/-- A table with distinct independent values. -/
def exDistinct : DataTable Int Int :=
  ⟨[10, 20], ⟨1, [[1], [2]]⟩, []⟩

/-- A freshly default-constructed table: no rows, no columns, no
metadata. -/
def exEmptyTable : DataTable Int Int :=
  ⟨[], ⟨0, []⟩, []⟩

/-- A zero-column table whose labels metadata holds one label. -/
def exZeroColLabeled : DataTable Int Int :=
  ⟨[], ⟨0, []⟩, [("labels", ValueArrayAny.strArray ["a"])]⟩

/-- A table whose labels metadata holds an empty array. -/
def exEmptyLabelsArr : DataTable Int Int :=
  ⟨[], ⟨0, []⟩, [("labels", ValueArrayAny.strArray [])]⟩

/-- A consistent table: two columns, matching labels and a second metadata
key of the same length. -/
def exValidMeta : DataTable Int Int :=
  ⟨[0], ⟨2, [[1, 2]]⟩,
    [("labels", ValueArrayAny.strArray ["a", "b"]),
     ("units", ValueArrayAny.strArray ["u", "v"])]⟩

/-- A three-component element (the shape of `SimTK::Vec3`), with exact
scalar components. -/
abbrev V3 := Int × Int × Int

/-- Source `splitElementAndPushBack` for the `V3` shape (DataTable.h lines
676-682): the three components in order. -/
def splitV3 (v : V3) : List Int :=
  [v.1, v.2.1, v.2.2]

/-- A one-column `V3` table whose extra metadata key holds a string
array. -/
def exV3MetaString : DataTable Int V3 :=
  ⟨[0], ⟨1, [[(1, 2, 3)]]⟩,
    [("labels", ValueArrayAny.strArray ["a"]),
     ("units", ValueArrayAny.strArray ["u"])]⟩

/-- The same table with the extra metadata key holding a non-string
(unsigned) array. -/
def exV3MetaNonString : DataTable Int V3 :=
  ⟨[0], ⟨1, [[(1, 2, 3)]]⟩,
    [("labels", ValueArrayAny.strArray ["a"]),
     ("units", ValueArrayAny.uintArray [7])]⟩

/-- The expected flattening of `exV3MetaString`. -/
def exC4Result : DataTable Int Int :=
  ⟨[0], ⟨3, [[1, 2, 3]]⟩,
    [("labels", ValueArrayAny.strArray ["a_1", "a_2", "a_3"]),
     ("units", ValueArrayAny.strArray ["u", "u", "u"])]⟩

/-- A two-column, two-row `V3` table with labels `a`, `b`. -/
def exV3AB : DataTable Int V3 :=
  ⟨[0, 1],
    ⟨2, [[(1, 2, 3), (4, 5, 6)], [(7, 8, 9), (10, 11, 12)]]⟩,
    [("labels", ValueArrayAny.strArray ["a", "b"])]⟩

/-- The expected flattening of `exV3AB` under suffixes `_x`, `_y`, `_z`. -/
def exC5Result : DataTable Int Int :=
  ⟨[0, 1],
    ⟨6, [[1, 2, 3, 4, 5, 6], [7, 8, 9, 10, 11, 12]]⟩,
    [("labels",
      ValueArrayAny.strArray ["a_x", "a_y", "a_z", "b_x", "b_y", "b_z"])]⟩

/-! Helper lemmas shared by the claim theorems. -/

/-- Looking up a key just set returns the value set. -/
theorem getValueArrayForKey_set (s : MetaDataStore) (key : String)
    (v : ValueArrayAny) :
    getValueArrayForKey (setValueArrayForKey s key v) key = some v := by
  induction s with
  | nil => simp [setValueArrayForKey, getValueArrayForKey]
  | cons kv rest ih =>
    by_cases h : kv.1 = key
    · simp [setValueArrayForKey, getValueArrayForKey, h]
    · simp only [setValueArrayForKey, if_neg h]
      simpa [getValueArrayForKey, List.find?_cons, h] using ih

/-- Fact: `appendRow` never touches the dependents metadata store. -/
theorem appendRow_metadata {ETX ETY : Type} [Inhabited ETY]
    (t : DataTable ETX ETY) (i : ETX) (r : List ETY) :
    (t.appendRow i r).table.dependentsMetaData = t.dependentsMetaData := by
  unfold DataTable.appendRow
  dsimp only
  split
  · split
    · split <;> rfl
    · rfl
  · split <;> rfl

/-- The row loop of the flatten constructor never touches the dependents
metadata store of the accumulating table. -/
theorem appendAllRows_metadata {ETX ETY Scalar : Type} [Inhabited ETX]
    [Inhabited ETY] [Inhabited Scalar] (split : ETY → List Scalar)
    (that : DataTable ETX ETY) :
    ∀ (rs : List Nat) (acc res : DataTable ETX Scalar),
      DataTable.appendAllRows split that rs acc = .ok res →
      res.dependentsMetaData = acc.dependentsMetaData := by
  intro rs
  induction rs with
  | nil =>
    intro acc res h
    simp only [DataTable.appendAllRows] at h
    cases h
    rfl
  | cons r rs ih =>
    intro acc res h
    unfold DataTable.appendAllRows at h
    split at h
    · exact Except.noConfusion h
    · dsimp only at h
      split at h
      · exact Except.noConfusion h
      · rw [ih _ _ h, appendRow_metadata]

/-- Fact: `findFirstIndex` yields `none` exactly on values absent from the
list. -/
theorem findFirstIndex_eq_none {α : Type} [DecidableEq α] (l : List α)
    (v : α) : DataTable.findFirstIndex l v = none ↔ v ∉ l := by
  induction l with
  | nil => simp [DataTable.findFirstIndex]
  | cons x xs ih =>
    by_cases hx : x = v
    · simp [DataTable.findFirstIndex, hx]
    · simp [DataTable.findFirstIndex, hx, Option.map_eq_none', ih,
        Ne.symm hx]

/-- On a duplicate-free list, the first index of the `i`-th element is `i`
itself. -/
theorem findFirstIndex_get_of_nodup {α : Type} [DecidableEq α] :
    ∀ (l : List α), l.Nodup → ∀ (i : Nat) (h : i < l.length),
      DataTable.findFirstIndex l (l.get ⟨i, h⟩) = some i := by
  intro l
  induction l with
  | nil => intro _ i h; simp at h
  | cons x xs ih =>
    intro hnd i h
    cases i with
    | zero => simp [DataTable.findFirstIndex]
    | succ n =>
      have hn : n < xs.length := by simpa using h
      have hmem : x ∉ xs := (List.nodup_cons.mp hnd).1
      have hx : ¬ x = (x :: xs).get ⟨n + 1, h⟩ := by
        rw [List.get_cons_succ]
        intro he
        exact hmem (he ▸ List.get_mem xs n hn)
      rw [DataTable.findFirstIndex, if_neg hx, List.get_cons_succ,
        ih (List.nodup_cons.mp hnd).2 n hn]
      rfl

/-- The label-expansion loop computes exactly the expansion formula of the
spec. -/
theorem expandLabels_eq_spec (k : Nat) (labels suffixes : List String) :
    expandLabels k labels suffixes = specLabelExpansion labels suffixes k := by
  unfold expandLabels specLabelExpansion
  dsimp only
  induction labels with
  | nil => simp
  | cons L rest ih =>
    simp only [List.flatMap_cons, ih]
    congr 1
    by_cases h : suffixes = []
    · simp only [if_pos h, List.map_map]
      apply List.map_congr_left
      intro i _
      simp [String.append_assoc]
    · simp only [if_neg h]

/-- Every member of the store has a registered array under its key. -/
theorem getValueArrayForKey_isSome_of_mem (store : MetaDataStore)
    (kv : String × ValueArrayAny) (h : kv ∈ store) :
    ∃ a, getValueArrayForKey store kv.1 = some a := by
  unfold getValueArrayForKey
  have hs : (store.find? (fun x => x.1 = kv.1)).isSome := by
    rw [List.find?_isSome]
    exact ⟨kv, h, by simp⟩
  obtain ⟨x, hx⟩ := Option.isSome_iff_exists.mp hs
  exact ⟨x.2, by rw [hx]; rfl⟩

/-- The metadata loop fails only by the null-pointer dereference. -/
theorem transformMetaData_error (k : Nat) :
    ∀ (s : MetaDataStore) (e : DataTableError),
      transformMetaData k s = .error e → e = .nullPointerDereference := by
  intro s
  induction s with
  | nil => intro e h; exact Except.noConfusion h
  | cons kv rest ih =>
    intro e h
    unfold transformMetaData at h
    split at h
    · cases hr : transformMetaData k rest with
      | error e2 => rw [hr] at h; cases h; exact ih _ hr
      | ok m => rw [hr] at h; exact Except.noConfusion h
    · split at h
      · cases hr : transformMetaData k rest with
        | error e2 => rw [hr] at h; cases h; exact ih _ hr
        | ok m => rw [hr] at h; exact Except.noConfusion h
      · cases h; rfl

/-- Fact: `validateDependentsMetaData` never raises `InvalidArgument`. -/
theorem validateDependentsMetaData_error {ETX ETY : Type}
    (t : DataTable ETX ETY) (e : DataTableError)
    (h : t.validateDependentsMetaData = some e) :
    e.isInvalidArgument = false := by
  unfold DataTable.validateDependentsMetaData at h
  split at h
  · cases h; rfl
  · dsimp only at h
    split at h
    · cases h; rfl
    · split at h
      · cases h; rfl
      · split at h
        · cases h; rfl
        · exact Option.noConfusion h

/-- Fact: `appendRow` never raises `InvalidArgument`. -/
theorem appendRow_error {ETX ETY : Type} [Inhabited ETY]
    (t : DataTable ETX ETY) (i : ETX) (r : List ETY) (e : DataTableError)
    (h : (t.appendRow i r).error = some e) :
    e.isInvalidArgument = false := by
  unfold DataTable.appendRow at h
  dsimp only at h
  split at h
  · split at h
    · split at h
      · cases h; rfl
      · exact Option.noConfusion h
    · exact Option.noConfusion h
  · split at h
    · exact Option.noConfusion h
    · cases h; rfl

/-- Fact: `getRowAtIndex` never raises `InvalidArgument`. -/
theorem getRowAtIndex_error {ETX ETY : Type} (t : DataTable ETX ETY)
    (r : Nat) (e : DataTableError) (h : t.getRowAtIndex r = .error e) :
    e.isInvalidArgument = false := by
  unfold DataTable.getRowAtIndex at h
  split at h
  · cases h; rfl
  · exact Except.noConfusion h

/-- The row loop of the flatten constructor never raises
`InvalidArgument`. -/
theorem appendAllRows_error {ETX ETY Scalar : Type} [Inhabited ETX]
    [Inhabited ETY] [Inhabited Scalar] (split : ETY → List Scalar)
    (that : DataTable ETX ETY) :
    ∀ (rs : List Nat) (acc : DataTable ETX Scalar) (e : DataTableError),
      DataTable.appendAllRows split that rs acc = .error e →
      e.isInvalidArgument = false := by
  intro rs
  induction rs with
  | nil => intro acc e h; exact Except.noConfusion h
  | cons r rs ih =>
    intro acc e h
    unfold DataTable.appendAllRows at h
    split at h
    · cases h
      exact getRowAtIndex_error that r _ (by assumption)
    · dsimp only at h
      split at h
      · cases h
        exact appendRow_error acc _ _ _ (by assumption)
      · exact ih _ _ h

/-- The body of the flatten constructor, after the three precondition
checks, never raises `InvalidArgument`. -/
theorem flattenBody_error {ETX ETY Scalar : Type} [Inhabited ETX]
    [Inhabited ETY] [Inhabited Scalar] (k : Nat) (split : ETY → List Scalar)
    (that : DataTable ETX ETY) (suffixes : List String) (e : DataTableError)
    (h : DataTable.flattenBody k split that suffixes =
          (.error e : Except DataTableError (DataTable ETX Scalar))) :
    e.isInvalidArgument = false := by
  unfold DataTable.flattenBody at h
  split at h
  · cases h
    rw [transformMetaData_error k that.dependentsMetaData e (by assumption)]
    rfl
  · split at h
    · cases h; rfl
    · dsimp only at h
      split at h
      · cases h
        have hset := by assumption
        unfold DataTable.setColumnLabels at hset
        dsimp only at hset
        split at hset
        · cases hset
          exact validateDependentsMetaData_error _ _ (by assumption)
        · exact Except.noConfusion hset
      · exact appendAllRows_error split that _ _ _ h

/-! Claim theorems. -/

/-- Claim C1: refuted as stated; the code commits the independent value
before the width validation.  On an empty table with two labels set,
appending a one-element row raises `IncorrectNumColumns`, yet the table is
left with the independent value `0` pushed onto the independent column
while the dependent matrix is untouched — the pre-call state is not
restored, and the independent value has been committed without the
dependent row. -/
theorem appendRow_failure_commits_independent_value :
    exEmptyLabeled.appendRow 0 [5] =
      ⟨⟨[0], ⟨0, []⟩, exLabelsAB⟩,
        some (DataTableError.incorrectNumColumns 2 1)⟩ ∧
    (exEmptyLabeled.appendRow 0 [5]).table.indData ≠
      exEmptyLabeled.indData := by
  decide

/-- Claim C2, counterexample: once the column count is established by a
previous append (here 2 columns, 1 row), appending a row of width 3 does
not fail with `IncorrectNumColumns` — no width check runs on that path;
the failure surfaces only in the matrix-view assignment — and the row
count grows from 1 to 2 instead of staying unchanged. -/
theorem appendRow_established_mismatch_counterexample :
    (exEstablished.appendRow 1 [7, 8, 9]).error =
      some DataTableError.simtkDimensionMismatch ∧
    ((exEstablished.appendRow 1 [7, 8, 9]).error.map
      DataTableError.isIncorrectNumColumns) = some false ∧
    (exEstablished.appendRow 1 [7, 8, 9]).table.getNumRows = 2 ∧
    exEstablished.getNumRows = 1 := by
  decide

/-- Claim C2, amended: only when the dependent matrix is still empty (no
rows or no columns) and "labels" metadata is present does a width mismatch
fail with `IncorrectNumColumns` carrying the expected (labels length) and
actual (row width) counts; the dependent matrix, and hence the row and
column counts, are left unchanged (the independent value, however, has
already been pushed). -/
theorem appendRow_first_append_incorrectNumColumns {ETX ETY : Type}
    [Inhabited ETY] (t : DataTable ETX ETY) (ind : ETX) (depRow : List ETY)
    (arr : ValueArrayAny)
    (hempty : t.depData.nrow = 0 ∨ t.depData.ncol = 0)
    (hlab : getValueArrayForKey t.dependentsMetaData ("labels") = some arr)
    (hne : depRow.length ≠ arr.size) :
    t.appendRow ind depRow =
      ⟨{ t with indData := t.indData ++ [ind] },
        some (DataTableError.incorrectNumColumns arr.size depRow.length)⟩ ∧
    (t.appendRow ind depRow).table.getNumRows = t.getNumRows ∧
    (t.appendRow ind depRow).table.getNumColumns = t.getNumColumns := by
  have hmain : t.appendRow ind depRow =
      ⟨{ t with indData := t.indData ++ [ind] },
        some (DataTableError.incorrectNumColumns arr.size depRow.length)⟩ := by
    unfold DataTable.appendRow
    dsimp only
    rw [if_pos hempty, hlab]
    dsimp only
    rw [if_pos hne]
  refine ⟨hmain, ?_, ?_⟩ <;>
    simp [hmain, DataTable.getNumRows, DataTable.getNumColumns,
      SimTKMatrix.nrow]

/-- Witness for the amended claim C2, at an empty two-label table and a
three-element row. -/
theorem appendRow_first_append_incorrectNumColumns_witness :
    (exEmptyLabeled.appendRow 5 [7, 8, 9]).table.getNumRows =
      exEmptyLabeled.getNumRows ∧
    (exEmptyLabeled.appendRow 5 [7, 8, 9]).table.getNumColumns =
      exEmptyLabeled.getNumColumns :=
  (appendRow_first_append_incorrectNumColumns exEmptyLabeled 5 [7, 8, 9]
    (ValueArrayAny.strArray ["a", "b"]) (Or.inl rfl) (by decide)
    (by decide)).2

/-- Claim C3, counterexample: `flatten()` on a scalar-element table is
resolved to the plain copy constructor, so the labels come back unchanged
— `a`, not the claimed `a_1`. -/
theorem flatten_scalar_labels_counterexample :
    exScalarTable.flattenScalar.getColumnLabelsList = some ["a"] ∧
    some ["a"] ≠ some ["a_1"] := by
  decide

/-- Claim C3, amended: for a scalar-element table with labels set and at
least one row and one column, `flatten()` is a member-wise copy: row
count, column count, independent column, matrix content and labels are all
exactly those of the source (the labels are not suffixed). -/
theorem flatten_scalar_is_copy {ETX ETY : Type} (t : DataTable ETX ETY)
    (hlab : t.hasColumnLabels = true) (hr : 0 < t.getNumRows)
    (hc : 0 < t.getNumColumns) :
    t.flattenScalar.getNumRows = t.getNumRows ∧
    t.flattenScalar.getNumColumns = t.getNumColumns ∧
    t.flattenScalar.indData = t.indData ∧
    t.flattenScalar.depData = t.depData ∧
    t.flattenScalar.getColumnLabelsList = t.getColumnLabelsList :=
  ⟨rfl, rfl, rfl, rfl, rfl⟩

/-- Witness for the amended claim C3, at the one-column scalar table. -/
theorem flatten_scalar_is_copy_witness :
    exScalarTable.flattenScalar.getColumnLabelsList =
      exScalarTable.getColumnLabelsList :=
  (flatten_scalar_is_copy exScalarTable (by decide) (by decide)
    (by decide)).2.2.2.2

/-- Claim C4: the string half behaves as described — the `units` entry
`[u]` of a one-column three-component table is replicated to `[u, u, u]` —
but the non-string half is refuted: a non-string value array does not get
dropped; the pointer `dynamic_cast` yields null without throwing, the dead
`catch (std::bad_cast)` never runs `removeValueArrayForKey`, and the code
dereferences the null pointer. -/
theorem flatten_metadata_string_replicated_nonstring_crashes :
    DataTable.flattenCtor 3 splitV3 exV3MetaString [] = .ok exC4Result ∧
    DataTable.flattenCtor 3 splitV3 exV3MetaNonString [] =
      (.error .nullPointerDereference :
        Except DataTableError (DataTable Int Int)) :=
  ⟨rfl, rfl⟩

/-- Claim C10: the very first append into an empty table with no "labels"
metadata catches the `KeyNotFound` internally and succeeds for a row of
any positive width, fixing the column count to that row's width; no width
validation is performed. -/
theorem appendRow_first_append_no_labels {ETX ETY : Type} [Inhabited ETY]
    (t : DataTable ETX ETY) (ind : ETX) (depRow : List ETY)
    (hnolab : getValueArrayForKey t.dependentsMetaData ("labels") = none)
    (hind : t.indData = []) (hdep : t.depData = ⟨0, []⟩)
    (hpos : 0 < depRow.length) :
    t.appendRow ind depRow =
      ⟨⟨[ind], ⟨depRow.length, [depRow]⟩, t.dependentsMetaData⟩, none⟩ ∧
    (t.appendRow ind depRow).table.getNumColumns = depRow.length := by
  have hmain : t.appendRow ind depRow =
      ⟨⟨[ind], ⟨depRow.length, [depRow]⟩, t.dependentsMetaData⟩, none⟩ := by
    unfold DataTable.appendRow
    dsimp only
    rw [hind, hdep, hnolab]
    simp [SimTKMatrix.nrow]
  exact ⟨hmain, by simp [hmain, DataTable.getNumColumns]⟩

/-- Witness for claim C10: the metadata-free empty table accepts a
two-element first row and acquires two columns. -/
theorem appendRow_first_append_no_labels_witness :
    (exEmptyTable.appendRow 3 [4, 5]).table.getNumColumns = 2 :=
  (appendRow_first_append_no_labels exEmptyTable 3 [4, 5] rfl rfl rfl
    (by decide)).2

/-- Claim C7, counterexample: with a duplicated independent value
(`independentColumn = [0, 0]`), `getRow(independentColumn[1])` resolves to
the first match and returns row 0 (`[1]`), which differs from
`getRowAtIndex(1)` (`[2]`). -/
theorem getRow_duplicate_counterexample :
    exDupTable.indData.getD 1 99 = 0 ∧
    exDupTable.getRow 0 = .ok [1] ∧
    exDupTable.getRowAtIndex 1 = .ok [2] ∧
    ([1] : List Int) ≠ [2] := by
  refine ⟨rfl, rfl, rfl, by decide⟩

/-- Claim C7, amended: when the independent column has no duplicate
entries, `getRow(independentColumn[i])` returns exactly the contents of
`getRowAtIndex(i)` for every valid index (with duplicates it resolves to
the first exact match, which may be an earlier row); and `getRow` fails
with `KeyNotFound` whenever no entry equals the given value. -/
theorem getRow_agrees_getRowAtIndex {ETX ETY : Type} [DecidableEq ETX]
    [ToString ETX] (t : DataTable ETX ETY) (i : Nat)
    (h : i < t.indData.length) (hnd : t.indData.Nodup) :
    t.getRow (t.indData.get ⟨i, h⟩) = t.getRowAtIndex i ∧
    ∀ v, v ∉ t.indData →
      t.getRow v = .error (.keyNotFound (toString v)) := by
  constructor
  · unfold DataTable.getRow DataTable.getRowAtIndex
    rw [findFirstIndex_get_of_nodup t.indData hnd i h]
    rw [if_neg]
    simp only [DataTable.isRowIndexOutOfRange, ge_iff_le,
      decide_eq_true_eq]
    omega
  · intro v hv
    unfold DataTable.getRow
    rw [(findFirstIndex_eq_none t.indData v).mpr hv]

/-- Witness for the amended claim C7, at a table with distinct independent
values `[10, 20]`. -/
theorem getRow_agrees_getRowAtIndex_witness :
    exDistinct.getRow 20 = exDistinct.getRowAtIndex 1 :=
  (getRow_agrees_getRowAtIndex exDistinct 1 (by decide) (by decide)).1

/-- Claim C8, counterexample: on a table with zero rows and zero columns,
the errors are still raised, but the carried upper bound is not
`count - 1`: the row error carries `2^32 - 1` (the `size_t` wrap-around of
`0 - 1` truncated to `unsigned`) and the column error carries `2^64 - 1`
(the `int` value `-1` converted to `size_t`). -/
theorem outOfRange_empty_table_counterexample :
    exEmptyTable.getRowAtIndex 0 =
      .error (.rowIndexOutOfRange 0 0 4294967295) ∧
    exEmptyTable.getDependentColumnAtIndex 0 =
      .error (.columnIndexOutOfRange 0 0 18446744073709551615) ∧
    (4294967295 : Nat) ≠ 0 := by
  refine ⟨rfl, rfl, by decide⟩

/-- Claim C8, amended: for every well-formed table with at least one row
and one column (and realistic sizes: row count below `2^32`, column count
below `2^31`), `getRowAtIndex(rowCount)` fails with `RowIndexOutOfRange`
and `getDependentColumnAtIndex(colCount)` fails with
`ColumnIndexOutOfRange`, each carrying the offending index and the bounds
`[0, count - 1]`; with a zero count the carried upper bound wraps
instead. -/
theorem outOfRange_errors_carry_bounds {ETX ETY : Type} [Inhabited ETY]
    (t : DataTable ETX ETY) (hwf : t.indData.length = t.getNumRows)
    (hrpos : 0 < t.getNumRows) (hrsmall : t.getNumRows ≤ 2 ^ 32)
    (hcpos : 0 < t.getNumColumns) (hcsmall : t.getNumColumns ≤ 2 ^ 31) :
    t.getRowAtIndex t.getNumRows =
      .error (.rowIndexOutOfRange t.getNumRows 0 (t.getNumRows - 1)) ∧
    t.getDependentColumnAtIndex t.getNumColumns =
      .error (.columnIndexOutOfRange t.getNumColumns 0
        (t.getNumColumns - 1)) := by
  constructor
  · unfold DataTable.getRowAtIndex
    rw [if_pos]
    · rw [hwf]
      have h1 : sizeTSub1 t.getNumRows = t.getNumRows - 1 := by
        unfold sizeTSub1
        omega
      have h2 : toUnsigned32 (t.getNumRows - 1) = t.getNumRows - 1 := by
        unfold toUnsigned32
        omega
      rw [h1, h2]
    · simp only [DataTable.isRowIndexOutOfRange, ge_iff_le,
        decide_eq_true_eq]
      omega
  · unfold DataTable.getDependentColumnAtIndex
    have hc : t.depData.ncol = t.getNumColumns := rfl
    rw [if_pos]
    · have h0 : (0 : Int) ≤ (t.getNumColumns : Int) - 1 := by
        omega
      have h1 : (t.getNumColumns : Int) - 1 < (2 : Int) ^ 64 := by
        have hle : (t.getNumColumns : Int) ≤ 2 ^ 31 := by
          exact_mod_cast hcsmall
        norm_num at hle ⊢
        omega
      have hb : intToSizeT ((t.depData.ncol : Int) - 1) =
          t.getNumColumns - 1 := by
        unfold intToSizeT
        rw [hc, Int.emod_eq_of_lt h0 h1]
        omega
      rw [hb]
    · simp only [DataTable.isColumnIndexOutOfRange, ge_iff_le,
        decide_eq_true_eq]
      omega

/-- Witness for the amended claim C8, at a one-row, two-column table. -/
theorem outOfRange_errors_carry_bounds_witness :
    exEstablished.getRowAtIndex 1 =
      .error (.rowIndexOutOfRange 1 0 0) ∧
    exEstablished.getDependentColumnAtIndex 2 =
      .error (.columnIndexOutOfRange 2 0 1) :=
  outOfRange_errors_carry_bounds exEstablished rfl (by decide) (by decide)
    (by decide) (by decide)

/-- Claim C9, counterexample: on a zero-column table whose labels array
holds one entry, validation succeeds even though the labels length (1)
differs from the dependent-column count (0) — the length-agreement check
is skipped whenever the matrix has zero columns. -/
theorem validate_zero_col_counterexample :
    exZeroColLabeled.validateDependentsMetaData = none ∧
    getValueArrayForKey exZeroColLabeled.dependentsMetaData ("labels") =
      some (ValueArrayAny.strArray ["a"]) ∧
    (ValueArrayAny.strArray ["a"]).size ≠
      exZeroColLabeled.getNumColumns := by
  refine ⟨rfl, rfl, by decide⟩

/-- Claim C9, amended: when `validateDependentsMetaData()` returns without
error, the "labels" array is present and non-empty, its length equals the
dependent-column count whenever that count is nonzero (a zero-column table
passes with any non-empty labels array), and every key registered in the
store has an array of the same length as the labels array.  Validation
fails with `MissingMetaData` exactly when "labels" is absent, with
`MetaDataLengthZero` when the labels array is empty, and with
`IncorrectMetaDataLength` when a length disagrees. -/
theorem validate_characterization {ETX ETY : Type}
    (t : DataTable ETX ETY) :
    (t.validateDependentsMetaData = none →
      ∃ arr, getValueArrayForKey t.dependentsMetaData ("labels") =
          some arr ∧
        arr.size ≠ 0 ∧
        (t.depData.ncol ≠ 0 → arr.size = t.depData.ncol) ∧
        ∀ kv ∈ t.dependentsMetaData, ∃ a,
          getValueArrayForKey t.dependentsMetaData kv.1 = some a ∧
          a.size = arr.size) ∧
    (getValueArrayForKey t.dependentsMetaData ("labels") = none →
      t.validateDependentsMetaData = some (.missingMetaData ("labels"))) ∧
    (∀ arr, getValueArrayForKey t.dependentsMetaData ("labels") =
        some arr → arr.size = 0 →
      t.validateDependentsMetaData =
        some (.metaDataLengthZero ("labels"))) ∧
    (∀ arr, getValueArrayForKey t.dependentsMetaData ("labels") =
        some arr → arr.size ≠ 0 →
      ((t.depData.ncol ≠ 0 ∧ arr.size ≠ t.depData.ncol) ∨
        (∃ kv ∈ t.dependentsMetaData, ∃ a,
          getValueArrayForKey t.dependentsMetaData kv.1 = some a ∧
          a.size ≠ arr.size)) →
      ∃ key exp act, t.validateDependentsMetaData =
        some (.incorrectMetaDataLength key exp act)) := by
  refine ⟨?_, ?_, ?_, ?_⟩
  · intro h
    unfold DataTable.validateDependentsMetaData at h
    cases harr : getValueArrayForKey t.dependentsMetaData ("labels") with
    | none => rw [harr] at h; exact Option.noConfusion h
    | some arr =>
      rw [harr] at h
      dsimp only at h
      by_cases hsz : arr.size = 0
      · rw [if_pos hsz] at h; exact Option.noConfusion h
      · rw [if_neg hsz] at h
        by_cases hcol : t.depData.ncol ≠ 0 ∧ arr.size ≠ t.depData.ncol
        · rw [if_pos hcol] at h; exact Option.noConfusion h
        · rw [if_neg hcol] at h
          cases hbad : DataTable.firstBadKey t.dependentsMetaData arr.size
            with
          | some p =>
            rw [hbad] at h
            cases p
            dsimp only at h
            exact Option.noConfusion h
          | none =>
            refine ⟨arr, rfl, hsz, fun hc0 => ?_, fun kv hkv => ?_⟩
            · rcases Decidable.em (arr.size = t.depData.ncol) with he | he
              · exact he
              · exact absurd ⟨hc0, he⟩ hcol
            · obtain ⟨a, ha⟩ :=
                getValueArrayForKey_isSome_of_mem t.dependentsMetaData
                  kv hkv
              refine ⟨a, ha, ?_⟩
              have hnone := List.findSome?_eq_none_iff.mp hbad kv hkv
              rw [ha] at hnone
              dsimp only at hnone
              split at hnone
              · exact Option.noConfusion hnone
              · rename_i hne
                exact (not_not.mp hne).symm
  · intro h
    unfold DataTable.validateDependentsMetaData
    rw [h]
  · intro arr harr hz
    unfold DataTable.validateDependentsMetaData
    rw [harr]
    dsimp only
    rw [if_pos hz]
  · intro arr harr hnz hdis
    unfold DataTable.validateDependentsMetaData
    rw [harr]
    dsimp only
    rw [if_neg hnz]
    rcases Decidable.em
        (t.depData.ncol ≠ 0 ∧ arr.size ≠ t.depData.ncol) with hc | hc
    · rw [if_pos hc]
      exact ⟨"labels", t.depData.ncol, arr.size, rfl⟩
    · rw [if_neg hc]
      rcases hdis with hdis | ⟨kv, hkv, a, ha, hane⟩
      · exact absurd hdis hc
      · cases hbad : DataTable.firstBadKey t.dependentsMetaData arr.size
          with
        | some p =>
          rcases p with ⟨key, badSize⟩
          exact ⟨key, arr.size, badSize, rfl⟩
        | none =>
          exfalso
          have hnone := List.findSome?_eq_none_iff.mp hbad kv hkv
          rw [ha] at hnone
          dsimp only at hnone
          split at hnone
          · exact Option.noConfusion hnone
          · rename_i hne
            exact hne (fun hh => hane hh.symm)

/-- Witness for the amended claim C9: a table whose labels array is empty
fails with `MetaDataLengthZero`. -/
theorem validate_characterization_witness :
    exEmptyLabelsArr.validateDependentsMetaData =
      some (.metaDataLengthZero ("labels")) :=
  (validate_characterization exEmptyLabelsArr).2.2.1
    (ValueArrayAny.strArray []) rfl rfl

/-- Claim C6: the flatten transform fails with `InvalidArgument` exactly
when the source table has no column labels, or has zero rows or zero
columns, or a non-empty suffix list of the wrong size is supplied; an
empty suffix list is always accepted, and no later stage of the transform
raises `InvalidArgument`. -/
theorem flatten_invalidArgument_iff {ETX ETY Scalar : Type} [Inhabited ETX]
    [Inhabited ETY] [Inhabited Scalar] (k : Nat) (split : ETY → List Scalar)
    (that : DataTable ETX ETY) (suffixes : List String) :
    (∃ msg, DataTable.flattenCtor k split that suffixes =
        (.error (.invalidArgument msg) :
          Except DataTableError (DataTable ETX Scalar))) ↔
      (that.hasColumnLabels = false ∨ that.getNumRows = 0 ∨
        that.getNumColumns = 0 ∨
        (suffixes ≠ [] ∧ suffixes.length ≠ k)) := by
  constructor
  · rintro ⟨msg, h⟩
    unfold DataTable.flattenCtor at h
    by_cases h1 : that.hasColumnLabels = false
    · exact Or.inl h1
    · rw [if_neg (by simp [h1])] at h
      by_cases h2 : that.getNumRows = 0 ∨ that.getNumColumns = 0
      · rcases h2 with h2 | h2
        · exact Or.inr (Or.inl h2)
        · exact Or.inr (Or.inr (Or.inl h2))
      · rw [if_neg h2] at h
        by_cases h3 : suffixes ≠ [] ∧ suffixes.length ≠ k
        · exact Or.inr (Or.inr (Or.inr h3))
        · rw [if_neg h3] at h
          have hkind := flattenBody_error k split that suffixes _ h
          simp [DataTableError.isInvalidArgument] at hkind
  · intro hcond
    by_cases h1 : that.hasColumnLabels = false
    · exact ⟨"DataTable that has no column labels.",
        by unfold DataTable.flattenCtor; rw [if_pos (by simp [h1])]⟩
    · by_cases h2 : that.getNumRows = 0 ∨ that.getNumColumns = 0
      · exact ⟨"DataTable that has zero rows/columns.",
          by unfold DataTable.flattenCtor
             rw [if_neg (by simp [h1]), if_pos h2]⟩
      · by_cases h3 : suffixes ≠ [] ∧ suffixes.length ≠ k
        · exact ⟨"suffixes must contain same number of elements as components.",
            by unfold DataTable.flattenCtor
               rw [if_neg (by simp [h1]), if_neg h2, if_pos h3]⟩
        · rcases hcond with hc | hc | hc | hc
          · exact absurd hc h1
          · exact absurd (Or.inl hc) h2
          · exact absurd (Or.inr hc) h2
          · exact absurd hc h3

/-- Claim C5: whenever the flatten transform succeeds, the labels of the
result are exactly the spec's expansion formula: for source labels
`L_1..L_C` in order, the concatenation of `L_i` prefixed to each suffix,
the suffixes being the supplied ones or the default `"_1".."_k"`. -/
theorem flatten_label_expansion {ETX ETY Scalar : Type} [Inhabited ETX]
    [Inhabited ETY] [Inhabited Scalar] (k : Nat) (split : ETY → List Scalar)
    (that : DataTable ETX ETY) (suffixes : List String)
    (srcLabels : List String) (res : DataTable ETX Scalar)
    (hlab : that.getColumnLabelsList = some srcLabels)
    (hok : DataTable.flattenCtor k split that suffixes = .ok res) :
    res.getColumnLabelsList =
      some (specLabelExpansion srcLabels suffixes k) := by
  unfold DataTable.flattenCtor at hok
  split at hok
  · exact Except.noConfusion hok
  · split at hok
    · exact Except.noConfusion hok
    · split at hok
      · exact Except.noConfusion hok
      · unfold DataTable.flattenBody at hok
        split at hok
        · exact Except.noConfusion hok
        · rw [hlab] at hok
          dsimp only at hok
          split at hok
          · exact Except.noConfusion hok
          · rename_i t1 hset
            have hres := appendAllRows_metadata split that _ _ _ hok
            unfold DataTable.setColumnLabels at hset
            dsimp only at hset
            split at hset
            · exact Except.noConfusion hset
            · cases hset
              unfold DataTable.getColumnLabelsList
              rw [hres]
              dsimp only
              rw [getValueArrayForKey_set]
              rw [expandLabels_eq_spec]

/-- Witness for claim C5, at the two-column three-component table with
labels `a`, `b` and suffixes `_x`, `_y`, `_z`: the labels come out as
`a_x, a_y, a_z, b_x, b_y, b_z`, in that order. -/
theorem flatten_label_expansion_witness :
    DataTable.getColumnLabelsList exC5Result =
      some ["a_x", "a_y", "a_z", "b_x", "b_y", "b_z"] := by
  have h := flatten_label_expansion 3 splitV3 exV3AB ["_x", "_y", "_z"]
    ["a", "b"] exC5Result rfl rfl
  rw [h]
  rfl

end OpenSimModel
